import Mathlib

/-!
Shallow embedding of the vid-storage upload/transcode pipeline
(src/api/videos.rs and src/services/video_processor.rs), together with
theorems checking the natural-language specification against it.

External effects (filesystem, database, ffmpeg/ffprobe processes) are
modelled by an oracle `Env` fixing the outcome of each effectful step, and
each run is modelled as the list of *successful* externally visible writes
(`Event`) it performs, in program order.  Machine floating-point durations
are modelled exactly as rationals.
-/

namespace VidStorage

/-- `const CHUNK_DURATION: u32 = 6` — duration of each HLS segment in seconds. -/
def CHUNK_DURATION : Nat := 6

/-- `const QUALITIES: &[(&str, &str)]` — the fixed quality ladder. -/
def QUALITIES : List (String × String) :=
  [("1080p", "5000k"), ("720p", "2800k"), ("480p", "1400k"), ("360p", "800k")]

/-- `bitrate.trim_end_matches('k')`: removes all trailing `k` characters. -/
def trim_end_matches_k (s : String) : String :=
  ⟨(s.data.reverse.dropWhile (fun c => c = 'k')).reverse⟩

/-- Value of a list of decimal digit characters. -/
def digitsVal (cs : List Char) : Nat :=
  cs.foldl (fun a c => 10 * a + (c.toNat - 48)) 0

/-- Rust `u32::from_str`: an optional leading `+`, then one or more decimal
digits, value in `u32` range. -/
def parse_u32 (s : String) : Option Nat :=
  let cs := match s.data with
    | '+' :: r => r
    | r => r
  if cs ≠ [] ∧ cs.all Char.isDigit ∧ digitsVal cs < 2 ^ 32 then
    some (digitsVal cs)
  else
    none

/-- `fn parse_bitrate(bitrate: &str) -> Result<u32>`: strips trailing `k`s,
parses a `u32`, multiplies by 1000 (u32 arithmetic, hence the modulus). -/
def parse_bitrate (bitrate : String) : Option Nat :=
  (parse_u32 (trim_end_matches_k bitrate)).map (fun n => n * 1000 % 2 ^ 32)

/-- `fn get_resolution(quality: &str) -> String` (total, with a default). -/
def get_resolution (quality : String) : String :=
  match quality with
  | "1080p" => "1920x1080"
  | "720p" => "1280x720"
  | "480p" => "854x480"
  | "360p" => "640x360"
  | _ => "640x360"

/-- The resolution match at the top of `transcode_to_hls`; `None` models the
`Err("Invalid quality")` early return taken before ffmpeg is invoked. -/
def transcode_resolution (quality : String) : Option String :=
  match quality with
  | "1080p" => some "1920x1080"
  | "720p" => some "1280x720"
  | "480p" => some "854x480"
  | "360p" => some "640x360"
  | _ => none

/-- The decimal fragment of Rust `f64::from_str`, evaluated exactly in ℚ:
an optional sign, then digits with an optional fraction part, or a fraction
part alone.  (Rust additionally accepts exponent and inf/nan forms, which
the claims do not exercise; on this common fragment the two agree up to
rounding, which preserves sign and zero.) -/
def parse_f64 (s : String) : Option Rat :=
  let (neg, cs) : Bool × List Char :=
    match s.data with
    | '-' :: r => (true, r)
    | '+' :: r => (false, r)
    | r => (false, r)
  let intPart := cs.takeWhile Char.isDigit
  let rest := cs.dropWhile Char.isDigit
  let mag : Option Rat :=
    match rest with
    | [] => if intPart = [] then none else some ((digitsVal intPart : Nat) : Rat)
    | '.' :: fracPart =>
      if fracPart.all Char.isDigit ∧ (intPart ≠ [] ∨ fracPart ≠ []) then
        some (mkRat (digitsVal intPart * 10 ^ fracPart.length + digitsVal fracPart)
          (10 ^ fracPart.length))
      else none
    | _ => none
  mag.map (fun m => if neg then -m else m)

/-- `fn get_video_dir(v_id: Uuid) -> PathBuf`. -/
def get_video_dir (v_id : String) : String :=
  "uploads/" ++ v_id

/-- `fn get_video_duration(file_path: &str) -> Result<f64, _>`.
The ffprobe invocation is abstracted by its observable outcome `probe`:
`none` models a spawn failure or stdout that is not a JSON object, and
`some f` models parsed JSON whose `format.duration` field is `f` (a string
field, or absent).  The function then parses that string as an `f64`. -/
def get_video_duration (probe : Option (Option String)) : Option Rat :=
  match probe with
  | none => none
  | some none => none
  | some (some s) => parse_f64 s

/-- `output.parent()` of a slash-separated path: everything before the last
`/` (the call sites always pass a path containing a `/`). -/
def path_parent (p : String) : String :=
  ⟨((p.data.reverse.dropWhile (fun c => c ≠ '/')).reverse).dropLast⟩

/-- The argument list `transcode_to_hls` passes to ffmpeg (after the
resolution lookup succeeded).  `-g`/`-keyint_min` are the hard-coded `"48"`
of the source. -/
def transcode_args (input output : String) (bitrate : String)
    (resolution : String) (segment_duration : Nat) : List String :=
  ["-i", input, "-c:v", "libx264", "-c:a", "aac", "-b:v", bitrate,
   "-b:a", "128k", "-s", resolution, "-preset", "fast", "-g", "48",
   "-sc_threshold", "0", "-keyint_min", "48",
   "-hls_time", toString segment_duration,
   "-hls_playlist_type", "vod", "-loglevel", "quiet",
   "-hls_segment_filename", path_parent output ++ "/segment_%03d.ts", output]

/-- The argument list `generate_thumbnails` passes to ffmpeg. -/
def thumbnail_args (input thumbnails_dir : String) : List String :=
  ["-i", input, "-vf", "fps=1/10", "-frame_pts", "1", "-vf", "scale=320:-1",
   "-loglevel", "quiet", thumbnails_dir ++ "/thumb_%d.jpg"]

/-- Externally visible successful effects of a run, in program order.
Database writes that fail are logged by the code and produce no event. -/
inductive Event where
  | insertVideo (status : String)
  | setDuration (d : Rat)
  | setStatus (s : String)
  | setStatusDuration (s : String) (d : Rat)
  | insertQuality (resolution bitrate file_path : String)
  | ffmpegTranscode (args : List String)
  | ffmpegThumb (args : List String)
  | fsWrite (path content : String)
  deriving DecidableEq

/-- Oracle fixing the outcome of every effectful step of one run. -/
structure Env where
  /-- `fs::create_dir_all(&upload_dir)` in `handle_upload` succeeds. -/
  createUploadDirOk : Bool
  /-- `OpenOptions::open` of `original.mp4` succeeds. -/
  openFileOk : Bool
  /-- `f.write_all(&video_data)` succeeds. -/
  writeFileOk : Bool
  /-- `f.sync_all()` succeeds. -/
  syncFileOk : Bool
  /-- Outcome of the ffprobe run in `handle_upload` (see `get_video_duration`). -/
  probe1 : Option (Option String)
  /-- The `videos.duration` update in `handle_upload` succeeds. -/
  durationDbOk : Bool
  /-- The `videos` insert in `upload_video` succeeds. -/
  insertVideoDbOk : Bool
  /-- The `status = "processing"` update in `upload_video` succeeds. -/
  markProcessingDbOk : Bool
  /-- The `status = "failed"` update in `upload_video`'s error branch succeeds. -/
  markFailedDbOk : Bool
  /-- `fs::create_dir_all(&hls_dir)` in `process_video` succeeds. -/
  createHlsDirOk : Bool
  /-- `fs::create_dir_all(&quality_dir)` succeeds, per quality label. -/
  createQualityDirOk : String → Bool
  /-- The ffmpeg transcode exits with success status, per quality label. -/
  transcodeOk : String → Bool
  /-- The `video_qualities` insert succeeds, per quality label. -/
  insertQualityDbOk : String → Bool
  /-- Outcome of the ffprobe run in `process_video` (after the ladder). -/
  probe2 : Option (Option String)
  /-- The `status = "processed"` + duration update in `process_video` succeeds. -/
  processedDbOk : Bool
  /-- `fs::write` of `master.m3u8` succeeds. -/
  writeMasterOk : Bool
  /-- `fs::create_dir_all(&thumbnails_dir)` in `generate_thumbnails` succeeds. -/
  createThumbDirOk : Bool
  /-- The ffmpeg thumbnail run exits with success status. -/
  thumbCmdOk : Bool
  /-- The `status = "failed"` update in the spawned task's error handler succeeds. -/
  spawnFailedDbOk : Bool

/-- The string `process_video` appends to the master playlist for one
successful ladder entry (the `format!` at its `push_str`). -/
def stream_inf_entry (quality : String) (bandwidth : Nat) : String :=
  "#EXT-X-STREAM-INF:BANDWIDTH=" ++ toString bandwidth ++ ",RESOLUTION=" ++
    get_resolution quality ++ "\n" ++ quality ++ "/stream.m3u8\n"

/-- Completion mode of `process_video`: normal return, an `Err` return
(propagated via `?`), or a panic (`.expect`) that kills the spawned task. -/
inductive Exit where
  | ok
  | err
  | panic
  deriving DecidableEq

/-- The `for &(quality, bitrate) in QUALITIES` loop of `process_video`, in
difference style: the events it performs, the text it appends to the
in-memory master playlist, and whether it ran to completion.  The third
component is `false` when the loop takes an early `Err` return (`?` on
quality directory creation or on `parse_bitrate`); a transcode failure only
skips the entry.  All call sites pass `CHUNK_DURATION` to
`transcode_to_hls`. -/
def ladder_loop (env : Env) (input hls_dir : String) :
    List (String × String) → List Event × String × Bool
  | [] => ([], "", true)
  | (quality, bitrate) :: rest =>
    if env.createQualityDirOk quality then
      match transcode_resolution quality with
      | none => ladder_loop env input hls_dir rest
      | some res =>
        let output := hls_dir ++ "/" ++ quality ++ "/stream.m3u8"
        let ev := Event.ffmpegTranscode (transcode_args input output bitrate res CHUNK_DURATION)
        if env.transcodeOk quality then
          let insEvs := if env.insertQualityDbOk quality then
            [Event.insertQuality quality bitrate ("hls/" ++ quality ++ "/stream.m3u8")]
            else []
          match parse_bitrate bitrate with
          | none => (ev :: insEvs, "", false)
          | some bandwidth =>
            match ladder_loop env input hls_dir rest with
            | (evs, entries, completed) =>
              (ev :: insEvs ++ evs, stream_inf_entry quality bandwidth ++ entries, completed)
        else
          match ladder_loop env input hls_dir rest with
          | (evs, entries, completed) => (ev :: evs, entries, completed)
    else ([], "", false)

/-- `async fn process_video(v_id, conn)`: hls directory creation, the quality
ladder, the post-ladder duration probe (whose failure panics via `.expect`),
the unconditional `status = "processed"` update (DB failure only logged),
the master playlist write, and thumbnail generation. -/
def process_video (env : Env) (v_id : String) : List Event × Exit :=
  let video_dir := get_video_dir v_id
  let input_path := video_dir ++ "/original.mp4"
  let hls_dir := video_dir ++ "/hls"
  if env.createHlsDirOk then
    match ladder_loop env input_path hls_dir QUALITIES with
    | (evs, entries, completed) =>
      let mp := "#EXTM3U\n#EXT-X-VERSION:3\n" ++ entries
      if completed then
        match get_video_duration env.probe2 with
        | none => (evs, Exit.panic)
        | some duration =>
          let evs2 := evs ++
            (if env.processedDbOk then [Event.setStatusDuration "processed" duration] else [])
          if env.writeMasterOk then
            let evs3 := evs2 ++ [Event.fsWrite (hls_dir ++ "/master.m3u8") mp]
            if env.createThumbDirOk then
              let evs4 := evs3 ++
                [Event.ffmpegThumb (thumbnail_args input_path (video_dir ++ "/thumbnails"))]
              if env.thumbCmdOk then (evs4, Exit.ok) else (evs4, Exit.err)
            else (evs3, Exit.err)
          else (evs2, Exit.err)
      else (evs, Exit.err)
  else ([], Exit.err)

/-- The task spawned at the end of `handle_upload`: runs `process_video`,
and on an `Err` return updates the status to `"failed"` (that DB write's own
failure is only logged).  A panic kills the task before the error handler. -/
def spawn_task (env : Env) (v_id : String) : List Event :=
  match process_video env v_id with
  | (evs, Exit.ok) => evs
  | (evs, Exit.panic) => evs
  | (evs, Exit.err) =>
    evs ++ (if env.spawnFailedDbOk then [Event.setStatus "failed"] else [])

/-- The foreground part of `async fn handle_upload` (everything before the
`tokio::spawn`): directory creation, writing and syncing `original.mp4`,
and the duration probe, whose *failure is silently ignored* by the
`if let Ok(duration)` while a successful probe's DB update is mandatory. -/
def handle_upload_fg (env : Env) : List Event × Bool :=
  if env.createUploadDirOk then
    if env.openFileOk then
      if env.writeFileOk then
        if env.syncFileOk then
          match get_video_duration env.probe1 with
          | some duration =>
            if env.durationDbOk then ([Event.setDuration duration], true)
            else ([], false)
          | none => ([], true)
        else ([], false)
      else ([], false)
    else ([], false)
  else ([], false)

/-- One multipart field as read by the upload loop: the outcome of
`content_disposition().get_name()`, `get_filename()`, and the byte chunks
delivered for the field.  A mid-stream read error ends the `while let
Ok(Some(..))` loop exactly like end-of-stream, so payloads are simply
(possibly truncated) field lists. -/
structure Field where
  name : Option String
  filename : Option String
  /-- The byte chunks delivered for the field.  (A read error *inside* a
  field propagates through `?` and aborts the request before the `videos`
  insert; such aborted payloads are not modelled — every modelled payload
  is a sequence of completely delivered fields.) -/
  chunks : List (List Nat)
  deriving DecidableEq

/-- `struct VideoMetadata`. -/
structure VideoMetadata where
  title : String
  description : Option String
  deriving DecidableEq

/-- Strict UTF-8 decoding of one chunk, as `std::str::from_utf8` validates
it: continuation bytes in `80..C0`, no overlong form, no surrogate, maximum
scalar value U+10FFFF. -/
def utf8_decode : List Nat → Option (List Char)
  | [] => some []
  | b0 :: rest =>
    if b0 < 128 then
      (utf8_decode rest).map (fun cs => Char.ofNat b0 :: cs)
    else
      match rest with
      | b1 :: rest1 =>
        if 192 ≤ b0 ∧ b0 < 224 then
          if 128 ≤ b1 ∧ b1 < 192 ∧ 128 ≤ (b0 - 192) * 64 + (b1 - 128) then
            (utf8_decode rest1).map
              (fun cs => Char.ofNat ((b0 - 192) * 64 + (b1 - 128)) :: cs)
          else none
        else
          match rest1 with
          | b2 :: rest2 =>
            if 224 ≤ b0 ∧ b0 < 240 then
              if (128 ≤ b1 ∧ b1 < 192) ∧ (128 ≤ b2 ∧ b2 < 192) ∧
                  2048 ≤ (b0 - 224) * 4096 + (b1 - 128) * 64 + (b2 - 128) ∧
                  ¬ (55296 ≤ (b0 - 224) * 4096 + (b1 - 128) * 64 + (b2 - 128) ∧
                     (b0 - 224) * 4096 + (b1 - 128) * 64 + (b2 - 128) < 57344) then
                (utf8_decode rest2).map
                  (fun cs => Char.ofNat ((b0 - 224) * 4096 + (b1 - 128) * 64 + (b2 - 128)) :: cs)
              else none
            else
              match rest2 with
              | b3 :: rest3 =>
                if 240 ≤ b0 ∧ b0 < 245 then
                  if (128 ≤ b1 ∧ b1 < 192) ∧ (128 ≤ b2 ∧ b2 < 192) ∧ (128 ≤ b3 ∧ b3 < 192) ∧
                      65536 ≤ (b0 - 240) * 262144 + (b1 - 128) * 4096 + (b2 - 128) * 64 + (b3 - 128) ∧
                      (b0 - 240) * 262144 + (b1 - 128) * 4096 + (b2 - 128) * 64 + (b3 - 128) < 1114112 then
                    (utf8_decode rest3).map
                      (fun cs => Char.ofNat
                        ((b0 - 240) * 262144 + (b1 - 128) * 4096 + (b2 - 128) * 64 + (b3 - 128)) :: cs)
                  else none
                else none
              | [] => none
          | [] => none
      | [] => none

/-- The per-chunk `std::str::from_utf8(&chunk)?` + `push_str` accumulation
used for the `title` and `description` fields. -/
def decode_chunks : List (List Nat) → Option String
  | [] => some ""
  | c :: rest =>
    match utf8_decode c, decode_chunks rest with
    | some s, some t => some (String.mk s ++ t)
    | _, _ => none

/-- The `while let Ok(Some(mut field)) = payload.try_next()` loop of
`upload_video`: collects the last `video` field's bytes and the metadata.
`none` models any of the pre-insert error returns (missing field name,
missing filename on the video field, invalid UTF-8 in a text field). -/
def read_fields : List Field → Option (String × List Nat) → VideoMetadata →
    Option (Option (String × List Nat) × VideoMetadata)
  | [], vf, meta => some (vf, meta)
  | f :: rest, vf, meta =>
    match f.name with
    | none => none
    | some fieldName =>
      match fieldName with
      | "video" =>
        match f.filename with
        | none => none
        | some filename => read_fields rest (some (filename, f.chunks.flatten)) meta
      | "title" =>
        match decode_chunks f.chunks with
        | none => none
        | some s => read_fields rest vf { meta with title := s }
      | "description" =>
        match decode_chunks f.chunks with
        | none => none
        | some s => read_fields rest vf { meta with description := some s }
      | _ => read_fields rest vf meta

/-- `async fn upload_video(payload, pool)`: reads the multipart payload,
rejects a missing video part *before* inserting the `videos` row (status
`"uploading"`), then runs `handle_upload`.  On its success the handler sets
status `"processing"`; on its failure, `"failed"`.  The detached task's
writes are serialised after the handler's own final status write (the
schedule in which the handler's write completes first); the task was
dispatched inside `handle_upload`, so it runs even when the `"processing"`
update itself fails.  The second component is `true` for an `Ok` response. -/
def upload_video (env : Env) (payload : List Field) (v_id : String) :
    List Event × Bool :=
  match read_fields payload none { title := "Untitled", description := none } with
  | none => ([], false)
  | some (vf, _meta) =>
    match vf with
    | none => ([], false)
    | some _ =>
      if env.insertVideoDbOk then
        match handle_upload_fg env with
        | (fgEvs, true) =>
          if env.markProcessingDbOk then
            (Event.insertVideo "uploading" :: fgEvs ++
              [Event.setStatus "processing"] ++ spawn_task env v_id, true)
          else
            (Event.insertVideo "uploading" :: fgEvs ++ spawn_task env v_id, false)
        | (fgEvs, false) =>
          if env.markFailedDbOk then
            (Event.insertVideo "uploading" :: fgEvs ++ [Event.setStatus "failed"], false)
          else (Event.insertVideo "uploading" :: fgEvs, false)
      else ([], false)

/-- The full event trace of one upload request and its background run. -/
def run_trace (env : Env) (payload : List Field) (v_id : String) : List Event :=
  (upload_video env payload v_id).1

/-- The status value a successful effect writes to the `videos` row, if any. -/
def statusOf : Event → Option String
  | Event.insertVideo s => some s
  | Event.setStatus s => some s
  | Event.setStatusDuration s _ => some s
  | _ => none

/-- The sequence of status values written to the `videos` row. -/
def statusTrace (evs : List Event) : List String :=
  evs.filterMap statusOf

/-- The spec's terminal statuses. -/
def isTerminal (s : String) : Bool :=
  s = "processed" || s = "failed"

/-- Claim C1 as stated: after a terminal status value is written, every later
status write carries the same value. -/
def afterTerminalUnchanged : List String → Bool
  | [] => true
  | s :: rest =>
    (if isTerminal s then rest.all (fun t => t = s) else true) &&
      afterTerminalUnchanged rest

/-- Concatenation of a list of strings. -/
def strJoin : List String → String
  | [] => ""
  | s :: rest => s ++ strJoin rest

/-- The master playlist exactly as the spec describes it (§6 format and §8
first testable property), with the ladder's literal pixel dimensions and
numeric-bitrate-times-1000 bandwidths, for a given set of successful
labels.  Written from the spec's words, to be compared with the playlist
the embedded code produces. -/
def spec_master_playlist (success : String → Bool) : String :=
  "#EXTM3U\n#EXT-X-VERSION:3\n" ++
    strJoin ((["1080p", "720p", "480p", "360p"].filter success).map (fun q =>
      match q with
      | "1080p" => "#EXT-X-STREAM-INF:BANDWIDTH=5000000,RESOLUTION=1920x1080\n1080p/stream.m3u8\n"
      | "720p" => "#EXT-X-STREAM-INF:BANDWIDTH=2800000,RESOLUTION=1280x720\n720p/stream.m3u8\n"
      | "480p" => "#EXT-X-STREAM-INF:BANDWIDTH=1400000,RESOLUTION=854x480\n480p/stream.m3u8\n"
      | _ => "#EXT-X-STREAM-INF:BANDWIDTH=800000,RESOLUTION=640x360\n360p/stream.m3u8\n"))

/-- The status the spawned task's error handler manages to write. -/
def failTail (env : Env) : List String :=
  if env.spawnFailedDbOk then ["failed"] else []

/-- Closed-form status writes of the spawned task (proved equal to the
model's in `spawn_status_eq`). -/
def spawnStatus (env : Env) : List String :=
  if env.createHlsDirOk then
    if QUALITIES.all (fun e => env.createQualityDirOk e.1) then
      match get_video_duration env.probe2 with
      | none => []
      | some _ =>
        (if env.processedDbOk then ["processed"] else []) ++
          (if env.writeMasterOk then
            if env.createThumbDirOk then
              if env.thumbCmdOk then [] else failTail env
            else failTail env
          else failTail env)
    else failTail env
  else failTail env

/-- Closed-form status writes of a full accepted upload (proved to cover
every run in `run_status_cases`). -/
def uploadStatus (env : Env) : List String :=
  if env.insertVideoDbOk then
    "uploading" ::
      (if (handle_upload_fg env).2 then
        (if env.markProcessingDbOk then ["processing"] else []) ++ spawnStatus env
      else if env.markFailedDbOk then ["failed"] else [])
  else []

/-- A late-pipeline failure after the `"processed"` status update: the
master playlist write or either half of thumbnail generation. -/
def lateStepFailed (env : Env) : Bool :=
  !env.writeMasterOk || !env.createThumbDirOk || !env.thumbCmdOk

/-- Amended C1 as a checker: a `"failed"` write is final, and a
`"processed"` write is followed by at most one `"failed"` write, which
requires a late-step failure. -/
def amendedStatusOk (lateFailed : Bool) : List String → Bool
  | [] => true
  | "failed" :: rest => rest.isEmpty
  | "processed" :: rest =>
    (rest.isEmpty || (lateFailed && rest == ["failed"])) &&
      amendedStatusOk lateFailed rest
  | _ :: rest => amendedStatusOk lateFailed rest

/-- Events that are pipeline work past the failure point ("no further
pipeline steps"): encoder or thumbnail invocations, quality-row inserts,
playlist writes. -/
def isPipelineWork : Event → Bool
  | Event.ffmpegTranscode _ => true
  | Event.ffmpegThumb _ => true
  | Event.insertQuality _ _ _ => true
  | Event.fsWrite _ _ => true
  | _ => false

/-- The transcode-invocation argument contract of the claim: keyframe
interval `8 × segment_duration` (also as the minimum), scene-cut detection
disabled, VOD playlist type, segment length `segment_duration`, as adjacent
argument pairs. -/
def transcodeContract (segment_duration : Nat) (args : List String) : Prop :=
  ["-g", toString (8 * segment_duration)] <:+: args ∧
  ["-keyint_min", toString (8 * segment_duration)] <:+: args ∧
  ["-sc_threshold", "0"] <:+: args ∧
  ["-hls_time", toString segment_duration] <:+: args ∧
  ["-hls_playlist_type", "vod"] <:+: args

/-- One `videos` row (timestamps as abstract clock values). -/
structure VideosRow where
  id : String
  title : String
  description : Option String
  duration : Option Rat
  status : String
  created_at : Nat
  updated_at : Nat
  deriving DecidableEq

/-- The pipeline's mutations of an existing `videos` row: the duration
update of `handle_upload`, the status updates of `upload_video` and the
spawned task, and the combined status+duration update of `process_video`. -/
def isVideosMutation : Event → Bool
  | Event.setDuration _ => true
  | Event.setStatus _ => true
  | Event.setStatusDuration _ _ => true
  | _ => false

/-- Modelled from the spec: the diesel migrations of this repository (the
`migrations/` directory `schema.rs` is generated from) are not under
`src/`; per the spec's data model, `updated_at` advances on mutation (a
trigger-maintained column), so a mutation stamps `updated_at` with the
database clock `now`.  The columns each statement sets are those of the
UPDATE statements in src/services/video_processor.rs and src/api/videos.rs:
only `status` and/or `duration`, never `created_at`. -/
def apply_videos_write (now : Nat) (row : VideosRow) : Event → VideosRow
  | Event.setDuration d => { row with duration := some d, updated_at := now }
  | Event.setStatus s => { row with status := s, updated_at := now }
  | Event.setStatusDuration s d =>
    { row with status := s, duration := some d, updated_at := now }
  | _ => row

/-- A run environment in which every external effect succeeds and both
probes report a 30-second duration. -/
def envAllOk : Env :=
  { createUploadDirOk := true, openFileOk := true, writeFileOk := true,
    syncFileOk := true, probe1 := some (some "30"), durationDbOk := true,
    insertVideoDbOk := true, markProcessingDbOk := true, markFailedDbOk := true,
    createHlsDirOk := true, createQualityDirOk := fun _ => true,
    transcodeOk := fun _ => true, insertQualityDbOk := fun _ => true,
    probe2 := some (some "30"), processedDbOk := true, writeMasterOk := true,
    createThumbDirOk := true, thumbCmdOk := true, spawnFailedDbOk := true }

/-- All effects succeed except the thumbnail ffmpeg run. -/
def envThumbFail : Env :=
  { envAllOk with thumbCmdOk := false }

/-- All effects succeed except the first (pre-dispatch) duration probe. -/
def envProbe1Fail : Env :=
  { envAllOk with probe1 := none }

/-- All effects succeed but the first probe reports a negative duration. -/
def envNegDuration : Env :=
  { envAllOk with probe1 := some (some "-1") }

/-- All effects succeed except creation of the upload directory. -/
def envUploadDirFail : Env :=
  { envAllOk with createUploadDirOk := false }

/-- All effects succeed except the 720p transcode. -/
def env720Fail : Env :=
  { envAllOk with transcodeOk := fun q => !(q == "720p") }

/-- All effects succeed except the 720p `video_qualities` insert. -/
def env720InsertFail : Env :=
  { envAllOk with insertQualityDbOk := fun q => !(q == "720p") }

/-- A payload with a single, zero-byte video part. -/
def payloadZeroByteVideo : List Field :=
  [{ name := some "video", filename := some "f.mp4", chunks := [] }]

/-- A payload with a one-byte video part. -/
def payloadOneByteVideo : List Field :=
  [{ name := some "video", filename := some "f.mp4", chunks := [[0]] }]

/-- A payload with a title field and no video part. -/
def payloadNoVideo : List Field :=
  [{ name := some "title", filename := none, chunks := [[104, 105]] }]

/-- Closed-form status writes of `process_video` itself (proved equal to
the model's in `process_video_statusTrace`). -/
def processStatusSpec (env : Env) : List String :=
  if env.createHlsDirOk then
    if QUALITIES.all (fun e => env.createQualityDirOk e.1) then
      match get_video_duration env.probe2 with
      | none => []
      | some _ => if env.processedDbOk then ["processed"] else []
    else []
  else []

/-- Closed-form completion mode of `process_video` (proved equal to the
model's in `process_video_exit`). -/
def processExitSpec (env : Env) : Exit :=
  if env.createHlsDirOk then
    if QUALITIES.all (fun e => env.createQualityDirOk e.1) then
      match get_video_duration env.probe2 with
      | none => Exit.panic
      | some _ =>
        if env.writeMasterOk then
          if env.createThumbDirOk then
            if env.thumbCmdOk then Exit.ok else Exit.err
          else Exit.err
        else Exit.err
    else Exit.err
  else Exit.err

/-! ### Helper lemmas -/

@[simp] theorem statusTrace_nil : statusTrace [] = [] := rfl

@[simp] theorem statusTrace_append (a b : List Event) :
    statusTrace (a ++ b) = statusTrace a ++ statusTrace b :=
  List.filterMap_append a b statusOf

@[simp] theorem statusTrace_insertVideo (s : String) (l : List Event) :
    statusTrace (Event.insertVideo s :: l) = s :: statusTrace l := rfl

@[simp] theorem statusTrace_setDuration (d : Rat) (l : List Event) :
    statusTrace (Event.setDuration d :: l) = statusTrace l := rfl

@[simp] theorem statusTrace_setStatus (s : String) (l : List Event) :
    statusTrace (Event.setStatus s :: l) = s :: statusTrace l := rfl

@[simp] theorem statusTrace_setStatusDuration (s : String) (d : Rat) (l : List Event) :
    statusTrace (Event.setStatusDuration s d :: l) = s :: statusTrace l := rfl

@[simp] theorem statusTrace_insertQuality (a b c : String) (l : List Event) :
    statusTrace (Event.insertQuality a b c :: l) = statusTrace l := rfl

@[simp] theorem statusTrace_ffmpegTranscode (a : List String) (l : List Event) :
    statusTrace (Event.ffmpegTranscode a :: l) = statusTrace l := rfl

@[simp] theorem statusTrace_ffmpegThumb (a : List String) (l : List Event) :
    statusTrace (Event.ffmpegThumb a :: l) = statusTrace l := rfl

@[simp] theorem statusTrace_fsWrite (p c : String) (l : List Event) :
    statusTrace (Event.fsWrite p c :: l) = statusTrace l := rfl

/-- Every event the ladder loop performs is an encoder invocation or a
quality-row insert. -/
theorem ladder_loop_shape (env : Env) (input hls_dir : String)
    (entries : List (String × String)) :
    ∀ e ∈ (ladder_loop env input hls_dir entries).1,
      (∃ o b r, e = Event.ffmpegTranscode (transcode_args input o b r CHUNK_DURATION)) ∨
        (∃ a b c, e = Event.insertQuality a b c) := by
  induction entries with
  | nil => intro e he; simp [ladder_loop] at he
  | cons hd rest ih =>
    obtain ⟨quality, bitrate⟩ := hd
    intro e he
    simp only [ladder_loop] at he
    repeat' split at he
    all_goals try simp only [List.mem_cons, List.mem_append, List.mem_singleton,
      List.not_mem_nil, or_false, false_or, or_assoc] at he
    all_goals first
      | exact he.elim
      | exact ih e he
      | exact Or.inl ⟨_, _, _, he⟩
      | (rcases he with rfl | he
         · exact Or.inl ⟨_, _, _, rfl⟩
         · first
            | exact ih e he
            | exact Or.inr ⟨_, _, _, he⟩
            | (rcases he with rfl | he
               · exact Or.inr ⟨_, _, _, rfl⟩
               · exact ih e he))


/-- The ladder loop writes no status values. -/
theorem ladder_loop_statusTrace (env : Env) (input hls_dir : String)
    (entries : List (String × String)) :
    statusTrace (ladder_loop env input hls_dir entries).1 = [] := by
  rw [statusTrace, List.filterMap_eq_nil_iff]
  intro e he
  rcases ladder_loop_shape env input hls_dir entries e he with ⟨o, b, r, rfl⟩ | ⟨a, b, c, rfl⟩ <;> rfl

/-- The ladder loop completes exactly when every quality directory creation
succeeds (given that every ladder bitrate parses, as the fixed ladder's
do). -/
theorem ladder_loop_completed (env : Env) (input hls_dir : String) :
    ∀ (entries : List (String × String)),
    (∀ e ∈ entries, (parse_bitrate e.2).isSome) →
    (ladder_loop env input hls_dir entries).2.2 =
      entries.all (fun e => env.createQualityDirOk e.1) := by
  intro entries
  induction entries with
  | nil => intro _; rfl
  | cons hd rest ih =>
    intro hpb
    obtain ⟨quality, bitrate⟩ := hd
    have hq : (parse_bitrate bitrate).isSome := hpb _ (List.mem_cons_self _ _)
    have ihr := ih (fun e he => hpb e (List.mem_cons_of_mem _ he))
    simp only [ladder_loop, List.all_cons]
    repeat' split
    all_goals simp_all

/-- The playlist text the ladder loop accumulates: one `stream_inf_entry`
per successful entry, in ladder order. -/
theorem ladder_loop_playlist (env : Env) (input hls_dir : String) :
    ∀ (entries : List (String × String)),
    (∀ e ∈ entries, env.createQualityDirOk e.1 = true ∧
      (parse_bitrate e.2).isSome ∧ (transcode_resolution e.1).isSome) →
    (ladder_loop env input hls_dir entries).2.1 =
      strJoin ((entries.filter (fun e => env.transcodeOk e.1)).map
        (fun e => stream_inf_entry e.1 ((parse_bitrate e.2).getD 0))) := by
  intro entries
  induction entries with
  | nil => intro _; rfl
  | cons hd rest ih =>
    intro hall
    obtain ⟨quality, bitrate⟩ := hd
    have hq := hall _ (List.mem_cons_self _ _)
    have ihr := ih (fun e he => hall e (List.mem_cons_of_mem _ he))
    simp only [ladder_loop, List.filter_cons]
    repeat' split
    all_goals simp_all [strJoin]

/-- Every ladder entry whose resolution is known gets its encoder
invocation, whatever the outcomes of the other entries (given directory
creations succeed and bitrates parse). -/
theorem ladder_loop_attempts (env : Env) (input hls_dir : String) :
    ∀ (entries : List (String × String)),
    (∀ e ∈ entries, env.createQualityDirOk e.1 = true ∧ (parse_bitrate e.2).isSome) →
    ∀ e ∈ entries, ∀ res, transcode_resolution e.1 = some res →
      Event.ffmpegTranscode (transcode_args input
        (hls_dir ++ "/" ++ e.1 ++ "/stream.m3u8") e.2 res CHUNK_DURATION) ∈
        (ladder_loop env input hls_dir entries).1 := by
  intro entries
  induction entries with
  | nil => intro _ e he; simp at he
  | cons hd rest ih =>
    intro hall e he res hres
    obtain ⟨quality, bitrate⟩ := hd
    have hq := hall _ (List.mem_cons_self _ _)
    have ihr := ih (fun x hx => hall x (List.mem_cons_of_mem _ hx))
    rcases List.mem_cons.mp he with rfl | he
    · simp only [ladder_loop]
      repeat' split
      all_goals simp_all
    · have hmem := ihr e he res hres
      simp only [ladder_loop]
      repeat' split
      all_goals simp_all

/-- If a quality's transcode fails or its row insert fails, the ladder loop
performs no `video_qualities` insert carrying that quality label. -/
theorem ladder_loop_no_insert (env : Env) (input hls_dir : String) (q : String)
    (hq : env.transcodeOk q = false ∨ env.insertQualityDbOk q = false) :
    ∀ (entries : List (String × String)) (bb fp : String),
      Event.insertQuality q bb fp ∉ (ladder_loop env input hls_dir entries).1 := by
  intro entries
  induction entries with
  | nil => intro bb fp hmem; simp [ladder_loop] at hmem
  | cons hd rest ih =>
    intro bb fp hmem
    obtain ⟨quality, bitrate⟩ := hd
    simp only [ladder_loop] at hmem
    repeat' split at hmem
    all_goals try simp only [List.mem_cons, List.mem_append, List.mem_singleton,
      List.not_mem_nil, or_false, false_or, or_assoc] at hmem
    all_goals first
      | exact hmem.elim
      | exact ih bb fp hmem
      | (rcases hmem with hmem | hmem
         · rcases hq with hq | hq <;> simp_all
         · first
           | exact ih bb fp hmem
           | (rcases hmem with hmem | hmem
              · rcases hq with hq | hq <;> simp_all
              · exact ih bb fp hmem))
      | (rcases hq with hq | hq <;> simp_all)


/-- The foreground part of `handle_upload` writes no status values. -/
theorem fg_status_nil (env : Env) : statusTrace (handle_upload_fg env).1 = [] := by
  unfold handle_upload_fg
  repeat' split
  all_goals simp


/-- The status writes of `process_video`, in closed form. -/
theorem process_video_statusTrace (env : Env) (v : String) :
    statusTrace (process_video env v).1 = processStatusSpec env := by
  have hpb : ∀ e ∈ QUALITIES, (parse_bitrate e.2).isSome := by decide
  have hcomp := ladder_loop_completed env (get_video_dir v ++ "/original.mp4")
    (get_video_dir v ++ "/hls") QUALITIES hpb
  have hst := ladder_loop_statusTrace env (get_video_dir v ++ "/original.mp4")
    (get_video_dir v ++ "/hls") QUALITIES
  simp only [process_video]
  unfold processStatusSpec
  rw [← hcomp]
  set r := ladder_loop env (get_video_dir v ++ "/original.mp4")
    (get_video_dir v ++ "/hls") QUALITIES with hr
  clear_value r
  obtain ⟨evs, ent, comp⟩ := r
  simp only at hcomp hst
  cases hhls : env.createHlsDirOk
  · simp
  · simp only [if_true]
    cases comp
    · simp [hst]
    · rcases hp2 : get_video_duration env.probe2 with _ | d
      · simp [hst, hp2]
      · cases hpd : env.processedDbOk <;>
          cases hw : env.writeMasterOk <;> cases htd : env.createThumbDirOk <;>
          cases htc : env.thumbCmdOk <;>
          simp [hst, hp2, hpd, hw, htd, htc]

/-- The completion mode of `process_video`, in closed form. -/
theorem process_video_exit (env : Env) (v : String) :
    (process_video env v).2 = processExitSpec env := by
  have hpb : ∀ e ∈ QUALITIES, (parse_bitrate e.2).isSome := by decide
  have hcomp := ladder_loop_completed env (get_video_dir v ++ "/original.mp4")
    (get_video_dir v ++ "/hls") QUALITIES hpb
  simp only [process_video]
  unfold processExitSpec
  rw [← hcomp]
  set r := ladder_loop env (get_video_dir v ++ "/original.mp4")
    (get_video_dir v ++ "/hls") QUALITIES with hr
  clear_value r
  obtain ⟨evs, ent, comp⟩ := r
  simp only at hcomp
  cases hhls : env.createHlsDirOk
  · simp
  · simp only [if_true]
    cases comp
    · simp
    · rcases hp2 : get_video_duration env.probe2 with _ | d
      · simp [hp2]
      · cases hpd : env.processedDbOk <;>
          cases hw : env.writeMasterOk <;> cases htd : env.createThumbDirOk <;>
          cases htc : env.thumbCmdOk <;>
          simp [hp2, hpd, hw, htd, htc]

/-- `spawnStatus` decomposes as the process status writes followed by the
error handler's write on an `Err` completion. -/
theorem spawnStatus_glue (env : Env) :
    spawnStatus env = processStatusSpec env ++
      (match processExitSpec env with
       | Exit.err => failTail env
       | _ => []) := by
  unfold spawnStatus processStatusSpec processExitSpec
  cases hhls : env.createHlsDirOk
  · simp
  · simp only [if_true]
    cases hall : QUALITIES.all (fun e => env.createQualityDirOk e.1)
    · simp
    · simp only [if_true]
      rcases hp2 : get_video_duration env.probe2 with _ | d
      · simp
      · cases hpd : env.processedDbOk <;>
          cases hw : env.writeMasterOk <;> cases htd : env.createThumbDirOk <;>
          cases htc : env.thumbCmdOk <;>
          simp [failTail]

/-- The status writes of the spawned task, in closed form. -/
theorem spawn_status_eq (env : Env) (v : String) :
    statusTrace (spawn_task env v) = spawnStatus env := by
  have hA := process_video_statusTrace env v
  have hB := process_video_exit env v
  unfold spawn_task
  set pr := process_video env v with hpr
  clear_value pr
  obtain ⟨evs, ex⟩ := pr
  simp only at hA hB
  rw [spawnStatus_glue env, ← hB, ← hA]
  cases ex <;> cases hsf : env.spawnFailedDbOk <;> simp [failTail, hsf]


/-- Every run's status-write sequence is empty (rejected upload) or the
closed form `uploadStatus`. -/
theorem run_status_cases (env : Env) (payload : List Field) (v : String) :
    statusTrace (run_trace env payload v) = [] ∨
      statusTrace (run_trace env payload v) = uploadStatus env := by
  rcases hr : read_fields payload none { title := "Untitled", description := none }
    with _ | ⟨vf, meta⟩
  · left
    simp [run_trace, upload_video, hr]
  · rcases vf with _ | vfile
    · left
      simp [run_trace, upload_video, hr]
    · right
      rcases hfg : handle_upload_fg env with ⟨fgEvs, fgOk⟩
      have hfgst : statusTrace fgEvs = [] := by
        have h := fg_status_nil env
        rw [hfg] at h
        exact h
      simp only [run_trace, upload_video, uploadStatus, hr, hfg]
      cases hienv : env.insertVideoDbOk <;>
        simp only [hienv, if_true, Bool.false_eq_true, if_false]
      · rfl
      · cases fgOk <;> simp only
        · cases hmf : env.markFailedDbOk <;> simp [hmf, hfgst]
        · cases hmp : env.markProcessingDbOk <;> simp [hmp, hfgst, spawn_status_eq]


/-- `amendedStatusOk` ignores a leading `"uploading"` write. -/
theorem amendedStatusOk_uploading (l : Bool) (rest : List String) :
    amendedStatusOk l ("uploading" :: rest) = amendedStatusOk l rest := by
  simp [amendedStatusOk]

/-- `amendedStatusOk` ignores a leading `"processing"` write. -/
theorem amendedStatusOk_processing (l : Bool) (rest : List String) :
    amendedStatusOk l ("processing" :: rest) = amendedStatusOk l rest := by
  simp [amendedStatusOk]

/-- The spawned task's status writes satisfy the amended C1 property. -/
theorem amended_spawnStatus (env : Env) :
    amendedStatusOk (lateStepFailed env) (spawnStatus env) = true := by
  unfold spawnStatus
  cases hhls : env.createHlsDirOk <;>
    simp only [Bool.false_eq_true, if_false, if_true]
  · cases hsf : env.spawnFailedDbOk <;> simp [failTail, hsf, amendedStatusOk]
  · cases hall : QUALITIES.all (fun e => env.createQualityDirOk e.1) <;>
      simp only [Bool.false_eq_true, if_false, if_true]
    · cases hsf : env.spawnFailedDbOk <;> simp [failTail, hsf, amendedStatusOk]
    · rcases hp2 : get_video_duration env.probe2 with _ | d <;> simp only
      · simp [amendedStatusOk]
      · cases hpd : env.processedDbOk <;> cases hw : env.writeMasterOk <;>
          cases htd : env.createThumbDirOk <;> cases htc : env.thumbCmdOk <;>
          cases hsf : env.spawnFailedDbOk <;>
          simp [failTail, lateStepFailed, hpd, hw, htd, htc, hsf, amendedStatusOk]


/-! ### Claim theorems -/

/-- Claim C1, amended (the claim as stated is refuted by
`c1_counterexample_thumbnail_overwrite`): in every run, a `"failed"` status
write is final, and after a `"processed"` status write the only possible
later status write is a single `"failed"`, which occurs only when a step
after the status update — the master-playlist write or thumbnail
generation — fails. -/
theorem c1_amended_terminal_status (env : Env) (payload : List Field) (v : String) :
    amendedStatusOk (lateStepFailed env) (statusTrace (run_trace env payload v)) = true := by
  rcases run_status_cases env payload v with h | h <;> rw [h]
  · rfl
  · unfold uploadStatus
    cases hienv : env.insertVideoDbOk <;>
      simp only [Bool.false_eq_true, if_false, if_true]
    · rfl
    · rw [amendedStatusOk_uploading]
      cases hfgo : (handle_upload_fg env).2 <;>
        simp only [Bool.false_eq_true, if_false, if_true]
      · cases hmf : env.markFailedDbOk <;> simp [amendedStatusOk]
      · cases hmp : env.markProcessingDbOk <;>
          simp only [Bool.false_eq_true, if_false, if_true, List.nil_append,
            List.cons_append, amendedStatusOk_processing]
        · exact amended_spawnStatus env
        · exact amended_spawnStatus env

/-- Claim C1, counterexample to the claim as stated: with every effect
succeeding except the thumbnail ffmpeg run, the pipeline writes the
terminal value `"processed"` and afterwards overwrites it with `"failed"`
(the thumbnail error propagates to the spawned task's error handler). -/
theorem c1_counterexample_thumbnail_overwrite :
    statusTrace (run_trace envThumbFail payloadOneByteVideo "v") =
      ["uploading", "processing", "processed", "failed"] ∧
    afterTerminalUnchanged
      (statusTrace (run_trace envThumbFail payloadOneByteVideo "v")) = false := by
  constructor <;> decide


/-- The foreground part of `handle_upload` performs no pipeline work
(its only possible event is the duration update). -/
theorem fg_events_not_work (env : Env) :
    ∀ e ∈ (handle_upload_fg env).1, isPipelineWork e = false := by
  unfold handle_upload_fg
  repeat' split
  all_goals intro e he
  all_goals first
    | (rcases List.mem_singleton.mp he with rfl; rfl)
    | simp at he

/-- Claim C2, amended (the claim as stated is refuted by
`c2_counterexample_status_not_preserved`): when thumbnail generation fails,
the error propagates out of `process_video` and the spawned task's error
handler overwrites the video's status with `"failed"`; the previously
assigned `"processed"` status does not survive. -/
theorem c2_amended_thumbnail_failure_flips_status (env : Env) (v : String) (d : Rat)
    (hhls : env.createHlsDirOk = true)
    (hdirs : QUALITIES.all (fun e => env.createQualityDirOk e.1) = true)
    (hp2 : get_video_duration env.probe2 = some d)
    (hw : env.writeMasterOk = true)
    (htd : env.createThumbDirOk = true)
    (htc : env.thumbCmdOk = false)
    (hsf : env.spawnFailedDbOk = true) :
    statusTrace (spawn_task env v) =
      (if env.processedDbOk then ["processed"] else []) ++ ["failed"] := by
  rw [spawn_status_eq]
  unfold spawnStatus
  rw [hhls, hdirs, hp2]
  simp [hw, htd, htc, failTail, hsf]

/-- Claim C2, counterexample to the claim as stated: with only the
thumbnail ffmpeg run failing, the status already assigned before the
thumbnail step is `"processed"`, yet the stored status afterwards is
`"failed"`. -/
theorem c2_counterexample_status_not_preserved :
    envThumbFail.thumbCmdOk = false ∧
    statusTrace (spawn_task envThumbFail "v") = ["processed", "failed"] ∧
    (statusTrace (spawn_task envThumbFail "v")).getLast? ≠ some "processed" := by
  refine ⟨by decide, by decide, by decide⟩

/-- Witness for `c2_amended_thumbnail_failure_flips_status` at a concrete
run. -/
theorem c2_witness :
    get_video_duration envThumbFail.probe2 = some 30 ∧
    envThumbFail.thumbCmdOk = false ∧
    statusTrace (spawn_task envThumbFail "v") =
      (if envThumbFail.processedDbOk then ["processed"] else []) ++ ["failed"] :=
  ⟨by decide, by decide,
    c2_amended_thumbnail_failure_flips_status envThumbFail "v" 30 (by decide)
      (by decide) (by decide) (by decide) (by decide) (by decide) (by decide)⟩

/-- Claim C7, amended (the claim's duration-probe half is refuted by
`c7_counterexample_probe_failure_ignored`): when creation of the video's
directories fails — the upload directory before dispatch, or the HLS
directory inside the run — the video's status ends at `"failed"` and the
run performs no pipeline work (no encoder or thumbnail invocation, no
quality-row insert, no playlist write).  A pre-dispatch duration-probe
failure, by contrast, is silently ignored. -/
theorem c7_amended_dir_failure_fails_and_stops (env : Env) (payload : List Field)
    (v : String) (vf : String × List Nat) (meta : VideoMetadata)
    (hr : read_fields payload none { title := "Untitled", description := none } =
      some (some vf, meta))
    (hins : env.insertVideoDbOk = true)
    (hmf : env.markFailedDbOk = true)
    (hmp : env.markProcessingDbOk = true)
    (hsf : env.spawnFailedDbOk = true)
    (hfail : env.createUploadDirOk = false ∨
      ((handle_upload_fg env).2 = true ∧ env.createHlsDirOk = false)) :
    (statusTrace (run_trace env payload v)).getLast? = some "failed" ∧
    ∀ e ∈ run_trace env payload v, isPipelineWork e = false := by
  rcases hfail with hup | ⟨hfgo, hhls⟩
  · have hfg : handle_upload_fg env = ([], false) := by
      unfold handle_upload_fg
      rw [hup]
      rfl
    unfold run_trace upload_video
    rw [hr]
    simp only [hins, if_true, hfg, hmf]
    constructor
    · rfl
    · intro e he
      rcases List.mem_cons.mp he with rfl | he
      · rfl
      · simp at he
        rcases he with rfl
        rfl
  · rcases hfg : handle_upload_fg env with ⟨fgEvs, fgOk⟩
    rw [hfg] at hfgo
    simp only at hfgo
    subst hfgo
    have hspawn : spawn_task env v = [Event.setStatus "failed"] := by
      unfold spawn_task process_video
      rw [hhls]
      simp [hsf]
    have hfgw := fg_events_not_work env
    have hfgs := fg_status_nil env
    rw [hfg] at hfgw hfgs
    simp only at hfgw hfgs
    unfold run_trace upload_video
    rw [hr]
    simp only [hins, if_true, hfg, hmp, hspawn]
    constructor
    · simp [hfgs]
    · intro e he
      rcases List.mem_cons.mp he with rfl | he
      · rfl
      · rcases List.mem_append.mp he with he | he
        · rcases List.mem_append.mp he with he | he
          · exact hfgw e he
          · rcases List.mem_singleton.mp he with rfl
            rfl
        · rcases List.mem_singleton.mp he with rfl
          rfl

/-- Claim C7, counterexample to the duration-probe half of the claim as
stated: with the pre-dispatch probe failing and everything else
succeeding, the run does not set `"failed"` and does not stop — it
proceeds through the whole pipeline and reaches `"processed"`. -/
theorem c7_counterexample_probe_failure_ignored :
    envProbe1Fail.probe1 = none ∧
    statusTrace (run_trace envProbe1Fail payloadOneByteVideo "v") =
      ["uploading", "processing", "processed"] ∧
    Event.ffmpegTranscode (transcode_args "uploads/v/original.mp4"
      "uploads/v/hls/1080p/stream.m3u8" "5000k" "1920x1080" CHUNK_DURATION) ∈
      run_trace envProbe1Fail payloadOneByteVideo "v" := by
  refine ⟨rfl, by decide, by decide⟩

/-- Witness for `c7_amended_dir_failure_fails_and_stops` at a concrete
run. -/
theorem c7_witness :
    read_fields payloadOneByteVideo none { title := "Untitled", description := none } =
      some (some ("f.mp4", [0]), { title := "Untitled", description := none }) ∧
    envUploadDirFail.createUploadDirOk = false ∧
    (statusTrace (run_trace envUploadDirFail payloadOneByteVideo "v")).getLast? =
      some "failed" :=
  ⟨by decide, by decide,
    (c7_amended_dir_failure_fails_and_stops envUploadDirFail payloadOneByteVideo "v"
      ("f.mp4", [0]) { title := "Untitled", description := none } (by decide)
      (by decide) (by decide) (by decide) (by decide) (Or.inl (by decide))).1⟩


/-- If no field of the payload is named `video`, the upload loop's
video-file accumulator is never set. -/
theorem read_fields_no_video :
    ∀ (fields : List Field) (acc : Option (String × List Nat)) (meta : VideoMetadata),
    (∀ f ∈ fields, f.name ≠ some "video") →
    ∀ res, read_fields fields acc meta = some res → res.1 = acc := by
  intro fields
  induction fields with
  | nil =>
    intro acc meta _ res hres
    simp only [read_fields, Option.some.injEq] at hres
    subst hres
    rfl
  | cons f rest ih =>
    intro acc meta hno res hres
    simp only [read_fields] at hres
    repeat' split at hres
    all_goals first
      | exact ih _ _ (fun g hg => hno g (List.mem_cons_of_mem _ hg)) _ hres
      | simp at hres
      | exact absurd ‹f.name = some "video"› (hno f (List.mem_cons_self _ _))

/-- Claim C5, amended (the zero-byte half of the claim is refuted by
`c5_counterexample_zero_byte_accepted`): an upload whose multipart payload
contains no video part is rejected with a bad-request error before the
`videos` insert, so no record is created.  A *zero-byte* video part,
however, is not rejected. -/
theorem c5_amended_missing_video_part (env : Env) (payload : List Field) (v : String)
    (hnov : ∀ f ∈ payload, f.name ≠ some "video") :
    (upload_video env payload v).2 = false ∧
    ∀ s, Event.insertVideo s ∉ run_trace env payload v := by
  unfold run_trace upload_video
  rcases hr : read_fields payload none { title := "Untitled", description := none }
    with _ | ⟨vf, meta⟩
  · simp
  · have hacc := read_fields_no_video payload none _ hnov _ hr
    simp only at hacc
    subst hacc
    simp

/-- Claim C5, counterexample to the zero-byte half of the claim as stated:
a payload whose video part carries zero bytes is accepted — the request
succeeds and a `videos` record is inserted. -/
theorem c5_counterexample_zero_byte_accepted :
    (∃ f ∈ payloadZeroByteVideo, f.name = some "video" ∧ f.chunks.flatten = []) ∧
    (upload_video envAllOk payloadZeroByteVideo "v").2 = true ∧
    Event.insertVideo "uploading" ∈ run_trace envAllOk payloadZeroByteVideo "v" := by
  refine ⟨by decide, by decide, by decide⟩

/-- Witness for `c5_amended_missing_video_part` at a concrete payload. -/
theorem c5_witness :
    (∀ f ∈ payloadNoVideo, f.name ≠ some "video") ∧
    (upload_video envAllOk payloadNoVideo "v").2 = false ∧
    Event.insertVideo "uploading" ∉ run_trace envAllOk payloadNoVideo "v" := by
  have h := c5_amended_missing_video_part envAllOk payloadNoVideo "v" (by decide)
  exact ⟨by decide, h.1, h.2 "uploading"⟩

/-- Claim C6, amended (the non-negativity half of the claim is refuted by
`c6_counterexample_negative_duration_stored`): when the pre-dispatch
duration probe succeeds, the parsed value is persisted immediately — it is
the first write after the `videos` insert, before any event of the
background run, whatever the transcode outcomes — but the code applies no
sign check, so the stored value is whatever the probe output parses to. -/
theorem c6_amended_duration_persisted_immediately (env : Env) (payload : List Field)
    (v : String) (d : Rat) (vf : String × List Nat) (meta : VideoMetadata)
    (hr : read_fields payload none { title := "Untitled", description := none } =
      some (some vf, meta))
    (hins : env.insertVideoDbOk = true)
    (hup : env.createUploadDirOk = true) (hop : env.openFileOk = true)
    (hwr : env.writeFileOk = true) (hsy : env.syncFileOk = true)
    (hp1 : get_video_duration env.probe1 = some d)
    (hdb : env.durationDbOk = true) :
    ∃ rest, run_trace env payload v =
      Event.insertVideo "uploading" :: Event.setDuration d :: rest := by
  have hfg : handle_upload_fg env = ([Event.setDuration d], true) := by
    unfold handle_upload_fg
    rw [hup, hop, hwr, hsy, hp1]
    simp [hdb]
  unfold run_trace upload_video
  rw [hr]
  simp only [hins, if_true, hfg]
  cases hmp : env.markProcessingDbOk <;> simp

/-- Claim C6, counterexample to the non-negativity half of the claim as
stated: a probe output whose `format.duration` field is `"-1"` parses
successfully and the negative value is stored unchecked. -/
theorem c6_counterexample_negative_duration_stored :
    Event.setDuration (-1) ∈ run_trace envNegDuration payloadOneByteVideo "v" ∧
    ((-1 : Rat) < 0) := by
  refine ⟨by decide, by decide⟩

/-- Witness for `c6_amended_duration_persisted_immediately` at a concrete
run. -/
theorem c6_witness :
    get_video_duration envAllOk.probe1 = some 30 ∧
    (∃ rest, run_trace envAllOk payloadOneByteVideo "v" =
      Event.insertVideo "uploading" :: Event.setDuration 30 :: rest) :=
  ⟨by decide,
    c6_amended_duration_persisted_immediately envAllOk payloadOneByteVideo "v" 30
      ("f.mp4", [0]) { title := "Untitled", description := none } (by decide)
      (by decide) (by decide) (by decide) (by decide) (by decide) (by decide)
      (by decide)⟩


/-- The fixed ffmpeg argument vector satisfies the claimed invocation
contract when called with `CHUNK_DURATION`: the hard-coded keyframe
arguments equal `8 × CHUNK_DURATION`. -/
theorem transcode_args_contract (i o b r : String) :
    transcodeContract CHUNK_DURATION (transcode_args i o b r CHUNK_DURATION) := by
  refine ⟨⟨["-i", i, "-c:v", "libx264", "-c:a", "aac", "-b:v", b,
      "-b:a", "128k", "-s", r, "-preset", "fast"], _, rfl⟩,
    ⟨["-i", i, "-c:v", "libx264", "-c:a", "aac", "-b:v", b,
      "-b:a", "128k", "-s", r, "-preset", "fast", "-g", "48",
      "-sc_threshold", "0"], _, rfl⟩,
    ⟨["-i", i, "-c:v", "libx264", "-c:a", "aac", "-b:v", b,
      "-b:a", "128k", "-s", r, "-preset", "fast", "-g", "48"], _, rfl⟩,
    ⟨["-i", i, "-c:v", "libx264", "-c:a", "aac", "-b:v", b,
      "-b:a", "128k", "-s", r, "-preset", "fast", "-g", "48",
      "-sc_threshold", "0", "-keyint_min", "48"], _, rfl⟩,
    ⟨["-i", i, "-c:v", "libx264", "-c:a", "aac", "-b:v", b,
      "-b:a", "128k", "-s", r, "-preset", "fast", "-g", "48",
      "-sc_threshold", "0", "-keyint_min", "48",
      "-hls_time", toString CHUNK_DURATION], _, rfl⟩⟩

/-- The foreground events of `handle_upload` are duration updates only. -/
theorem fg_events_shape (env : Env) :
    ∀ e ∈ (handle_upload_fg env).1, ∃ d, e = Event.setDuration d := by
  unfold handle_upload_fg
  repeat' split
  all_goals intro e he
  all_goals first
    | (rcases List.mem_singleton.mp he with rfl; exact ⟨_, rfl⟩)
    | simp at he

/-- Every spawned-task event is a `process_video` event or the error
handler's failed-status write. -/
theorem spawn_task_events (env : Env) (v : String) (e : Event)
    (he : e ∈ spawn_task env v) :
    e ∈ (process_video env v).1 ∨ e = Event.setStatus "failed" := by
  unfold spawn_task at he
  rcases hpr : process_video env v with ⟨evs, ex⟩
  rw [hpr] at he
  cases ex
  · exact Or.inl he
  · cases hsf : env.spawnFailedDbOk <;> simp only [hsf] at he
    · rcases List.mem_append.mp he with h | h
      · exact Or.inl h
      · simp at h
    · rcases List.mem_append.mp he with h | h
      · exact Or.inl h
      · rcases List.mem_singleton.mp h with rfl
        exact Or.inr rfl
  · exact Or.inl he

/-- Every `process_video` event is a ladder event, the combined
status+duration update, the master-playlist write, or the thumbnail
invocation. -/
theorem process_video_events (env : Env) (v : String) (e : Event)
    (he : e ∈ (process_video env v).1) :
    e ∈ (ladder_loop env (get_video_dir v ++ "/original.mp4")
      (get_video_dir v ++ "/hls") QUALITIES).1 ∨
    (∃ s d, e = Event.setStatusDuration s d) ∨ (∃ p c, e = Event.fsWrite p c) ∨
    (∃ a, e = Event.ffmpegThumb a) := by
  simp only [process_video] at he
  set r := ladder_loop env (get_video_dir v ++ "/original.mp4")
    (get_video_dir v ++ "/hls") QUALITIES with hr
  clear_value r
  obtain ⟨evs, ent, comp⟩ := r
  simp only
  repeat' split at he
  all_goals try simp only [List.mem_cons, List.mem_append, List.mem_singleton,
    List.not_mem_nil, or_false, false_or, or_assoc] at he
  all_goals first
    | exact he.elim
    | exact Or.inl he
    | (subst he; simp)
    | (rcases he with he | he)
    | skip
  all_goals first
    | exact he.elim
    | exact Or.inl he
    | (subst he; simp)
    | (rcases he with he | he)
    | skip
  all_goals first
    | exact he.elim
    | exact Or.inl he
    | (subst he; simp)
    | (rcases he with he | he)
    | skip
  all_goals first
    | exact he.elim
    | exact Or.inl he
    | (subst he; simp)


/-- Every run event is a spawned-task event, the `videos` insert, a
duration update, or one of the handler's two status writes. -/
theorem run_trace_events (env : Env) (payload : List Field) (v : String) (e : Event)
    (he : e ∈ run_trace env payload v) :
    e ∈ spawn_task env v ∨ e = Event.insertVideo "uploading" ∨
    (∃ d, e = Event.setDuration d) ∨ e = Event.setStatus "processing" ∨
    e = Event.setStatus "failed" := by
  unfold run_trace upload_video at he
  rcases hr : read_fields payload none { title := "Untitled", description := none }
    with _ | ⟨vf, meta⟩
  · rw [hr] at he
    simp at he
  · rw [hr] at he
    rcases vf with _ | vfile
    · simp at he
    · cases hins : env.insertVideoDbOk <;> simp only [hins, Bool.false_eq_true,
        if_false, if_true] at he
      · simp at he
      · rcases hfg : handle_upload_fg env with ⟨fgEvs, fgOk⟩
        rw [hfg] at he
        have hfgsh := fg_events_shape env
        rw [hfg] at hfgsh
        simp only at hfgsh
        cases fgOk <;>
          simp only [List.mem_cons, List.mem_append, List.mem_singleton,
            or_assoc] at he
        · cases hmf : env.markFailedDbOk <;>
            simp only [hmf, Bool.false_eq_true, if_false, if_true,
              List.mem_cons, List.mem_append, List.mem_singleton, or_assoc,
              List.not_mem_nil, or_false] at he
          · rcases he with rfl | he
            · exact Or.inr (Or.inl rfl)
            · exact Or.inr (Or.inr (Or.inl (hfgsh e he)))
          · rcases he with rfl | he | rfl
            · exact Or.inr (Or.inl rfl)
            · exact Or.inr (Or.inr (Or.inl (hfgsh e he)))
            · exact Or.inr (Or.inr (Or.inr (Or.inr rfl)))
        · cases hmp : env.markProcessingDbOk <;>
            simp only [hmp, Bool.false_eq_true, if_false, if_true,
              List.mem_cons, List.mem_append, List.mem_singleton, or_assoc,
              List.not_mem_nil, or_false, List.nil_append] at he
          · rcases he with rfl | he | he
            · exact Or.inr (Or.inl rfl)
            · exact Or.inr (Or.inr (Or.inl (hfgsh e he)))
            · exact Or.inl he
          · rcases he with rfl | he | rfl | he
            · exact Or.inr (Or.inl rfl)
            · exact Or.inr (Or.inr (Or.inl (hfgsh e he)))
            · exact Or.inr (Or.inr (Or.inr (Or.inl rfl)))
            · exact Or.inl he

/-- Claim C8 (confirmed): every transcode invocation of the pipeline is
made with segment duration `CHUNK_DURATION`, and its argument vector
carries a keyframe interval (and minimum keyframe interval) of
`8 × CHUNK_DURATION`, disabled scene-cut detection, VOD-style segmented
output, and segment length `CHUNK_DURATION` seconds. -/
theorem c8_transcode_invocation_contract (env : Env) (payload : List Field)
    (v : String) (args : List String)
    (hmem : Event.ffmpegTranscode args ∈ run_trace env payload v) :
    (∃ o b r, args = transcode_args (get_video_dir v ++ "/original.mp4")
      o b r CHUNK_DURATION) ∧
    transcodeContract CHUNK_DURATION args := by
  rcases run_trace_events env payload v _ hmem with h | h | ⟨d, h⟩ | h | h
  · rcases spawn_task_events env v _ h with h | h
    · rcases process_video_events env v _ h with h | ⟨s, d, h⟩ | ⟨p, c, h⟩ | ⟨a, h⟩
      · rcases ladder_loop_shape env _ _ QUALITIES _ h
          with ⟨o, b, r, heq⟩ | ⟨a, b, c, heq⟩
        · injection heq with h5
          subst h5
          exact ⟨⟨o, b, r, rfl⟩, transcode_args_contract _ _ _ _⟩
        · exact absurd heq (by simp)
      · exact absurd h (by simp)
      · exact absurd h (by simp)
      · exact absurd h (by simp)
    · exact absurd h (by simp)
  · exact absurd h (by simp)
  · exact absurd h (by simp)
  · exact absurd h (by simp)
  · exact absurd h (by simp)

/-- Witness for `c8_transcode_invocation_contract` at a concrete run. -/
theorem c8_witness :
    Event.ffmpegTranscode (transcode_args "uploads/v/original.mp4"
      "uploads/v/hls/1080p/stream.m3u8" "5000k" "1920x1080" CHUNK_DURATION) ∈
      run_trace envAllOk payloadOneByteVideo "v" ∧
    transcodeContract CHUNK_DURATION (transcode_args "uploads/v/original.mp4"
      "uploads/v/hls/1080p/stream.m3u8" "5000k" "1920x1080" CHUNK_DURATION) :=
  ⟨by decide,
    (c8_transcode_invocation_contract envAllOk payloadOneByteVideo "v" _
      (by decide)).2⟩


/-- The playlist text the embedded loop produces over the fixed ladder
equals the spec's literal master playlist, for every success pattern. -/
theorem spec_playlist_bridge (success : String → Bool) :
    "#EXTM3U\n#EXT-X-VERSION:3\n" ++ strJoin ((QUALITIES.filter
      (fun e => success e.1)).map (fun e => stream_inf_entry e.1
        ((parse_bitrate e.2).getD 0))) = spec_master_playlist success := by
  cases h1 : success "1080p" <;> cases h2 : success "720p" <;>
    cases h3 : success "480p" <;> cases h4 : success "360p" <;>
    simp only [QUALITIES, spec_master_playlist, List.filter_cons, List.filter_nil,
      h1, h2, h3, h4, if_true, if_false, Bool.false_eq_true, List.map_cons,
      List.map_nil] <;>
    decide


/-- When the run reaches the master-playlist write, the content written to
`master.m3u8` in the HLS root is the spec's literal master playlist for
the successful ladder entries. -/
theorem master_write_mem (env : Env) (v : String) (d : Rat)
    (hhls : env.createHlsDirOk = true)
    (hdirs : ∀ e ∈ QUALITIES, env.createQualityDirOk e.1 = true)
    (hp2 : get_video_duration env.probe2 = some d)
    (hw : env.writeMasterOk = true) :
    Event.fsWrite (get_video_dir v ++ "/hls" ++ "/master.m3u8")
      (spec_master_playlist env.transcodeOk) ∈ (process_video env v).1 := by
  have hpb : ∀ e ∈ QUALITIES, (parse_bitrate e.2).isSome := by decide
  have hres : ∀ e ∈ QUALITIES, (transcode_resolution e.1).isSome := by decide
  have hcomp := ladder_loop_completed env (get_video_dir v ++ "/original.mp4")
    (get_video_dir v ++ "/hls") QUALITIES hpb
  have hall : QUALITIES.all (fun e => env.createQualityDirOk e.1) = true :=
    List.all_eq_true.mpr hdirs
  rw [hall] at hcomp
  have hpl := ladder_loop_playlist env (get_video_dir v ++ "/original.mp4")
    (get_video_dir v ++ "/hls") QUALITIES
    (fun e heq => ⟨hdirs e heq, hpb e heq, hres e heq⟩)
  have hbridge := spec_playlist_bridge env.transcodeOk
  simp only [process_video]
  set r := ladder_loop env (get_video_dir v ++ "/original.mp4")
    (get_video_dir v ++ "/hls") QUALITIES with hr
  clear_value r
  obtain ⟨evs, ent, comp⟩ := r
  simp only at hcomp hpl
  subst hcomp
  rw [← hpl] at hbridge
  simp only [hhls, if_true, hp2, hw, hbridge]
  cases hpd : env.processedDbOk <;> cases htd : env.createThumbDirOk <;>
    cases htc : env.thumbCmdOk <;> simp [hpd, htd, htc, hbridge]

/-- Claim C4 (confirmed): whenever the run reaches the master-playlist
write (directory creations succeed, the post-ladder probe parses, the
write itself succeeds), the content written to `master.m3u8` in the HLS
root is exactly the `#EXTM3U`/`#EXT-X-VERSION:3` header followed by one
`#EXT-X-STREAM-INF` entry per successful ladder entry, in ladder order,
with `BANDWIDTH` = numeric bitrate × 1000, `RESOLUTION` = the ladder's
literal pixel dimensions, and the `{quality}/stream.m3u8` line. -/
theorem c4_master_playlist_format (env : Env) (v : String) (d : Rat)
    (hhls : env.createHlsDirOk = true)
    (hdirs : ∀ e ∈ QUALITIES, env.createQualityDirOk e.1 = true)
    (hp2 : get_video_duration env.probe2 = some d)
    (hw : env.writeMasterOk = true) :
    Event.fsWrite (get_video_dir v ++ "/hls" ++ "/master.m3u8")
      (spec_master_playlist env.transcodeOk) ∈ (process_video env v).1 :=
  master_write_mem env v d hhls hdirs hp2 hw

/-- Witness for `c4_master_playlist_format` at a concrete run. -/
theorem c4_witness :
    get_video_duration envAllOk.probe2 = some 30 ∧
    Event.fsWrite (get_video_dir "v" ++ "/hls" ++ "/master.m3u8")
      (spec_master_playlist envAllOk.transcodeOk) ∈ (process_video envAllOk "v").1 :=
  ⟨by decide,
    c4_master_playlist_format envAllOk "v" 30 (by decide) (by decide) (by decide)
      (by decide)⟩


/-- With the HLS directory created, every ladder event is a
`process_video` event. -/
theorem process_video_contains_ladder (env : Env) (v : String)
    (hhls : env.createHlsDirOk = true) :
    ∀ x ∈ (ladder_loop env (get_video_dir v ++ "/original.mp4")
      (get_video_dir v ++ "/hls") QUALITIES).1, x ∈ (process_video env v).1 := by
  intro x hx
  simp only [process_video]
  set r := ladder_loop env (get_video_dir v ++ "/original.mp4")
    (get_video_dir v ++ "/hls") QUALITIES with hr
  clear_value r
  obtain ⟨evs, ent, comp⟩ := r
  simp only at hx
  simp only [hhls, if_true]
  cases comp
  · exact hx
  · rcases hp2 : get_video_duration env.probe2 with _ | d <;> simp only [hp2]
    · exact hx
    · cases hpd : env.processedDbOk <;> cases hw : env.writeMasterOk <;>
        cases htd : env.createThumbDirOk <;> cases htc : env.thumbCmdOk <;>
        simp [hpd, hw, htd, htc, hx]

/-- If a quality's transcode or insert fails, no `video_qualities` insert
for that label occurs anywhere in `process_video`. -/
theorem process_no_insert (env : Env) (v : String) (q : String)
    (hq : env.transcodeOk q = false ∨ env.insertQualityDbOk q = false) :
    ∀ bb fp, Event.insertQuality q bb fp ∉ (process_video env v).1 := by
  intro bb fp hmem
  rcases process_video_events env v _ hmem with h | ⟨s, d, h⟩ | ⟨p, c, h⟩ | ⟨a, h⟩
  · exact ladder_loop_no_insert env _ _ q hq QUALITIES bb fp h
  · exact absurd h (by simp)
  · exact absurd h (by simp)
  · exact absurd h (by simp)

/-- Claim C3 (confirmed): for a ladder entry whose transcode fails, no
`VideoQuality` row is inserted for that quality, the master playlist
written contains exactly the successful entries (the failed one is not
among them), and every ladder entry is still attempted — the failure does
not abort the loop. -/
theorem c3_transcode_failure_isolated (env : Env) (v : String) (d : Rat)
    (q b : String)
    (hhls : env.createHlsDirOk = true)
    (hdirs : ∀ e ∈ QUALITIES, env.createQualityDirOk e.1 = true)
    (hp2 : get_video_duration env.probe2 = some d)
    (hw : env.writeMasterOk = true)
    (hqb : (q, b) ∈ QUALITIES)
    (hfail : env.transcodeOk q = false) :
    (∀ bb fp, Event.insertQuality q bb fp ∉ (process_video env v).1) ∧
    Event.fsWrite (get_video_dir v ++ "/hls" ++ "/master.m3u8")
      (spec_master_playlist env.transcodeOk) ∈ (process_video env v).1 ∧
    (q, b) ∉ QUALITIES.filter (fun e => env.transcodeOk e.1) ∧
    ∀ e ∈ QUALITIES, ∀ res, transcode_resolution e.1 = some res →
      Event.ffmpegTranscode (transcode_args (get_video_dir v ++ "/original.mp4")
        (get_video_dir v ++ "/hls" ++ "/" ++ e.1 ++ "/stream.m3u8") e.2 res
        CHUNK_DURATION) ∈ (process_video env v).1 := by
  have hpb : ∀ e ∈ QUALITIES, (parse_bitrate e.2).isSome := by decide
  refine ⟨process_no_insert env v q (Or.inl hfail),
    master_write_mem env v d hhls hdirs hp2 hw, ?_, ?_⟩
  · intro hmem
    have h := (List.mem_filter.mp hmem).2
    simp only at h
    rw [hfail] at h
    exact absurd h (by simp)
  · intro e he res hres
    exact process_video_contains_ladder env v hhls _
      (ladder_loop_attempts env _ _ QUALITIES
        (fun x hx => ⟨hdirs x hx, hpb x hx⟩) e he res hres)

/-- Witness for `c3_transcode_failure_isolated` at a concrete run where the
720p transcode fails. -/
theorem c3_witness :
    env720Fail.transcodeOk "720p" = false ∧
    (∀ bb fp, Event.insertQuality "720p" bb fp ∉ (process_video env720Fail "v").1) ∧
    ("720p", "2800k") ∉ QUALITIES.filter (fun e => env720Fail.transcodeOk e.1) ∧
    Event.ffmpegTranscode (transcode_args (get_video_dir "v" ++ "/original.mp4")
      (get_video_dir "v" ++ "/hls" ++ "/" ++ "360p" ++ "/stream.m3u8") "800k"
      "640x360" CHUNK_DURATION) ∈ (process_video env720Fail "v").1 := by
  have h := c3_transcode_failure_isolated env720Fail "v" 30 "720p" "2800k"
    (by decide) (by decide) (by decide) (by decide) (by decide) (by decide)
  exact ⟨by decide, h.1, h.2.2.1,
    h.2.2.2 ("360p", "800k") (by decide) "640x360" (by decide)⟩

/-- Claim C10 (confirmed): for a ladder entry whose transcode succeeds but
whose `VideoQuality` insert fails, no row insert for that quality occurs,
yet the entry is still listed in the master playlist written, and the run
continues through every remaining ladder entry. -/
theorem c10_insert_failure_still_listed (env : Env) (v : String) (d : Rat)
    (q b : String)
    (hhls : env.createHlsDirOk = true)
    (hdirs : ∀ e ∈ QUALITIES, env.createQualityDirOk e.1 = true)
    (hp2 : get_video_duration env.probe2 = some d)
    (hw : env.writeMasterOk = true)
    (hqb : (q, b) ∈ QUALITIES)
    (htr : env.transcodeOk q = true)
    (hins : env.insertQualityDbOk q = false) :
    (∀ bb fp, Event.insertQuality q bb fp ∉ (process_video env v).1) ∧
    Event.fsWrite (get_video_dir v ++ "/hls" ++ "/master.m3u8")
      (spec_master_playlist env.transcodeOk) ∈ (process_video env v).1 ∧
    (q, b) ∈ QUALITIES.filter (fun e => env.transcodeOk e.1) ∧
    ∀ e ∈ QUALITIES, ∀ res, transcode_resolution e.1 = some res →
      Event.ffmpegTranscode (transcode_args (get_video_dir v ++ "/original.mp4")
        (get_video_dir v ++ "/hls" ++ "/" ++ e.1 ++ "/stream.m3u8") e.2 res
        CHUNK_DURATION) ∈ (process_video env v).1 := by
  have hpb : ∀ e ∈ QUALITIES, (parse_bitrate e.2).isSome := by decide
  refine ⟨process_no_insert env v q (Or.inr hins),
    master_write_mem env v d hhls hdirs hp2 hw,
    List.mem_filter.mpr ⟨hqb, htr⟩, ?_⟩
  intro e he res hres
  exact process_video_contains_ladder env v hhls _
    (ladder_loop_attempts env _ _ QUALITIES
      (fun x hx => ⟨hdirs x hx, hpb x hx⟩) e he res hres)

/-- Witness for `c10_insert_failure_still_listed` at a concrete run where
the 720p row insert fails. -/
theorem c10_witness :
    env720InsertFail.transcodeOk "720p" = true ∧
    env720InsertFail.insertQualityDbOk "720p" = false ∧
    (∀ bb fp, Event.insertQuality "720p" bb fp ∉
      (process_video env720InsertFail "v").1) ∧
    ("720p", "2800k") ∈ QUALITIES.filter
      (fun e => env720InsertFail.transcodeOk e.1) := by
  have h := c10_insert_failure_still_listed env720InsertFail "v" 30 "720p" "2800k"
    (by decide) (by decide) (by decide) (by decide) (by decide) (by decide)
    (by decide)
  exact ⟨by decide, by decide, h.1, h.2.2.1⟩


/-- Claim C9 (confirmed; the trigger half is modelled from the spec since
the migrations are not under src/): every pipeline mutation of an existing
`videos` row — a status update, a duration update, or the combined
update — advances `updated_at` to the write's clock value, and no pipeline
write ever changes `created_at`. -/
theorem c9_timestamps_on_mutation (now : Nat) (row : VideosRow) (e : Event)
    (hmut : isVideosMutation e = true)
    (hclock : row.updated_at < now) :
    row.updated_at < (apply_videos_write now row e).updated_at ∧
    (apply_videos_write now row e).created_at = row.created_at := by
  cases e <;> simp [isVideosMutation] at hmut <;>
    simp [apply_videos_write, hclock]

/-- Witness for `c9_timestamps_on_mutation` at a concrete row and write. -/
theorem c9_witness :
    isVideosMutation (Event.setStatus "processed") = true ∧
    ((0 : Nat) <
      (apply_videos_write 1
        { id := "a", title := "t", description := none, duration := none,
          status := "uploading", created_at := 0, updated_at := 0 }
        (Event.setStatus "processed")).updated_at ∧
     (apply_videos_write 1
        { id := "a", title := "t", description := none, duration := none,
          status := "uploading", created_at := 0, updated_at := 0 }
        (Event.setStatus "processed")).created_at = 0) :=
  ⟨by decide,
    c9_timestamps_on_mutation 1
      { id := "a", title := "t", description := none, duration := none,
        status := "uploading", created_at := 0, updated_at := 0 }
      (Event.setStatus "processed") (by decide) (by decide)⟩

end VidStorage
